import Mathlib

/-!
Shallow embedding of the state-machine validator `macros/src/validation.rs`
(smlang-rs).  The validator consumes a parsed state machine and checks that
every reused action / guard identifier is invoked with one consistent call
signature, and that no transition is unreachable due to guard ordering.

The parser that builds the model (`ParsedStateMachine`, `AsyncIdent`,
`GuardExpression`, `visit_guards`) is not part of the validator source; those
definitions are modelled from the specification, as documented on each one.
Rust `HashMap`s are modelled as association lists; `syn::Type` values are
opaque atoms compared for equality, which mirrors the structural equality the
validator relies on.  The `unwrap` calls in the two signature validators are
modelled by an outer `Option` layer: `none` stands for a panic, so proving the
result is always `some` proves the `unwrap`s are safe.
-/

/-- Opaque stand-in for `syn::Type`: the validator only clones and compares
these values for structural equality, so an atom with decidable equality is a
faithful model. -/
abbrev SynType := String

/-- Modelled from the spec: an action / guard reference is "a callable
identifier plus a synchrony flag (ordinary vs. asynchronous invocation)"
(spec, section 3).  Mirrors `AsyncIdent { ident, is_async }` used by
`validation.rs`. -/
structure AsyncIdent where
  ident : String
  is_async : Bool
deriving DecidableEq

/-- Modelled from the spec: a guard expression is "a tree of boolean
combinators (and/or/not) whose leaves are Guard References" (spec,
section 3). -/
inductive GuardExpression where
  | guard (g : AsyncIdent)
  | not (e : GuardExpression)
  | and (l r : GuardExpression)
  | or (l r : GuardExpression)
deriving DecidableEq

/-- Modelled from the spec: a transition "carries an optional guard
expression, an optional action reference, and a target/output state" and
"belongs to exactly one (source state, event) pair" with "an ordered position
among sibling transitions for that pair" (spec, section 3).  The validator
source reads only `guard` and `action`; the target state is carried as data. -/
structure Transition where
  guard : Option GuardExpression
  action : Option AsyncIdent
  out_state : String
deriving DecidableEq

/-- Modelled from the spec: the event-keyed bundle of transitions for one
(source state, event) pair; it records the event identifier and the sibling
transitions in declared order.  Mirrors the `EventMapping { event, transitions }`
fields read by `validation.rs`. -/
structure EventMapping where
  event : String
  transitions : List Transition
deriving DecidableEq

/-- Modelled from the spec: a name-to-data-type mapping ("a state-name to
data-type mapping; an event-name to data-type mapping", spec, section 6).
Mirrors the `data_types` field read by `validation.rs`. -/
structure DataDefinitions where
  data_types : List (String × SynType)
deriving DecidableEq

/-- Modelled from the spec: the full input model.  The spec fixes two
data-type mappings and a mapping whose transitions are grouped per
(source state, event) pair: "Transition: belongs to exactly one
(source state, event) pair" (section 3) and "for every (state, event) pair
whose transition bundle has more than one entry, scan the transitions in
their declared order" (section 4.4); the source names the structure
`states_events_mapping` and binds its second-level key as `event` in
`validate_unreachable_transitions`.  So the outer key is the source-state
name and the inner key the event name.  (One sentence of section 3 instead
calls the inner key a target-state name, echoing the binder `out_state_name`
in `validate_action_signatures`; that reading is incompatible with the
(state, event) bundling used everywhere else in the spec, so the embedding
keeps the key opaque exactly as the source does and the inner key is the
event name.)  `HashMap` iteration is modelled by list order. -/
structure ParsedStateMachine where
  state_data : DataDefinitions
  event_data : DataDefinitions
  states_events_mapping : List (String × List (String × EventMapping))
deriving DecidableEq

/-- `HashMap::get` on an association list. -/
def assoc_get {α : Type} (m : List (String × α)) (k : String) : Option α :=
  match m with
  | [] => none
  | (k', v) :: rest => if k' = k then some v else assoc_get rest k

/-- `FunctionSignature` from `validation.rs`: ordered input argument types,
optional result type, synchrony flag. -/
structure FunctionSignature where
  arguments : List SynType
  result : Option SynType
  is_async : Bool
deriving DecidableEq

/-- `FunctionSignature::new`: push the input-state data type (if any), then
the event data type (if any), record the output data type and the flag. -/
def FunctionSignature.new (input_data event_data output_data : Option SynType)
    (is_async : Bool) : FunctionSignature :=
  { arguments := input_data.toList ++ event_data.toList
    result := output_data
    is_async := is_async }

/-- `FunctionSignature::new_guard`: guards never have output data. -/
def FunctionSignature.new_guard (input_state event : Option SynType)
    (is_async : Bool) : FunctionSignature :=
  FunctionSignature.new input_state event none is_async

/-- The validator's error values, one constructor per `parse::Error` site in
`validation.rs`, carrying the data interpolated into the message. -/
inductive ValidationError where
  | actionSignature (action : String)
  | guardSignature (guard : String)
  | unreachableTransition (in_state event guard_text : String)
  | duplicateTransition (in_state event : String)
deriving DecidableEq

/-- Modelled from the spec: rendering of a guard expression for the
unreachable-transition message (the source uses the parser's `Display`
instance, which is outside the validator). -/
def GuardExpression.render : GuardExpression → String
  | .guard g => if g.is_async then "async " ++ g.ident else g.ident
  | .not e => "!" ++ e.render
  | .and l r => "(" ++ l.render ++ " && " ++ r.render ++ ")"
  | .or l r => "(" ++ l.render ++ " || " ++ r.render ++ ")"

/-- The message of each error, mirroring the `format!` strings of
`validation.rs` (associativity chosen right-nested to match `++`). -/
def ValidationError.message : ValidationError → String
  | .actionSignature a =>
      "Action `" ++ (a ++ "` can only be reused when all input states, events, and output states have the same data")
  | .guardSignature g =>
      "Guard `" ++ (g ++ "` can only be reused when all input states and events have the same data")
  | .unreachableTransition s e g =>
      s ++ (" + " ++ (e ++ (": [" ++ (g ++ "] : guarded transition is unreachable because it follows an unguarded transition, which handles all cases"))))
  | .duplicateTransition s e =>
      s ++ (" + " ++ (e ++ ": State and event combination specified multiple times, remove duplicates."))

/-- The transient identifier-to-first-seen-signature map of one validation
run (`HashMap<String, FunctionSignature>`). -/
abbrev SignatureMap := List (String × FunctionSignature)

/-- `HashMap::entry(k).or_insert_with(|| v)`: insert `v` only when `k` is
absent. -/
def entry_or_insert (m : SignatureMap) (k : String) (v : FunctionSignature) :
    SignatureMap :=
  match assoc_get m k with
  | some _ => m
  | none => (k, v) :: m

/-- One signature check as performed at each call site in both signature
validators: `or_insert_with` the signature, re-`get` it, `unwrap` (the `none`
result models a failing `unwrap`), and compare with the present signature. -/
def signature_check_step (mk_error : String → ValidationError) (name : String)
    (signature : FunctionSignature) (m : SignatureMap) :
    Option (Except ValidationError SignatureMap) :=
  let m' := entry_or_insert m name signature
  match assoc_get m' name with
  | none => none
  | some recorded =>
      if recorded ≠ signature then some (Except.error (mk_error name))
      else some (Except.ok m')

/-- Modelled from the spec: `visit_guards` lives in the parser; it
"recursively visit[s] every leaf guard reference inside the expression tree"
and "propagates the callback's first failure upward (short-circuiting further
traversal)" (spec, sections 4.3 and 9).  The callback threads the mutable
`guards` map it captures in the source. -/
def visit_guards {σ : Type} (f : AsyncIdent → σ → Option (Except ValidationError σ)) :
    GuardExpression → σ → Option (Except ValidationError σ)
  | .guard g, s => f g s
  | .not e, s => visit_guards f e s
  | .and l r, s =>
      match visit_guards f l s with
      | none => none
      | some (Except.error e) => some (Except.error e)
      | some (Except.ok s') => visit_guards f r s'
  | .or l r, s =>
      match visit_guards f l s with
      | none => none
      | some (Except.error e) => some (Except.error e)
      | some (Except.ok s') => visit_guards f r s'

/-- Innermost loop of `validate_action_signatures`: the transitions of one
event mapping, threading the `actions` map. -/
def actions_check_transitions (in_state_data event_data out_state_data : Option SynType)
    (actions : SignatureMap) :
    List Transition → Option (Except ValidationError SignatureMap)
  | [] => some (Except.ok actions)
  | t :: rest =>
      match t.action with
      | none => actions_check_transitions in_state_data event_data out_state_data actions rest
      | some a =>
          match signature_check_step ValidationError.actionSignature a.ident
              (FunctionSignature.new in_state_data event_data out_state_data a.is_async)
              actions with
          | none => none
          | some (Except.error e) => some (Except.error e)
          | some (Except.ok actions') =>
              actions_check_transitions in_state_data event_data out_state_data actions' rest

/-- Middle loop of `validate_action_signatures`: the source binds the
second-level key as `out_state_name`, looks it up in the state-data map as
the output data, and takes the event data from the mapping's `event` field. -/
def actions_check_event_mappings (sm : ParsedStateMachine) (in_state_data : Option SynType)
    (actions : SignatureMap) :
    List (String × EventMapping) → Option (Except ValidationError SignatureMap)
  | [] => some (Except.ok actions)
  | (out_state_name, event_mapping) :: rest =>
      match actions_check_transitions in_state_data
          (assoc_get sm.event_data.data_types event_mapping.event)
          (assoc_get sm.state_data.data_types out_state_name)
          actions event_mapping.transitions with
      | none => none
      | some (Except.error e) => some (Except.error e)
      | some (Except.ok actions') => actions_check_event_mappings sm in_state_data actions' rest

/-- Outer loop of `validate_action_signatures` over the source states. -/
def actions_check_states (sm : ParsedStateMachine) (actions : SignatureMap) :
    List (String × List (String × EventMapping)) → Option (Except ValidationError SignatureMap)
  | [] => some (Except.ok actions)
  | (in_state_name, from_transitions) :: rest =>
      match actions_check_event_mappings sm
          (assoc_get sm.state_data.data_types in_state_name) actions from_transitions with
      | none => none
      | some (Except.error e) => some (Except.error e)
      | some (Except.ok actions') => actions_check_states sm actions' rest

/-- `validate_action_signatures` from `validation.rs`. -/
def validate_action_signatures (sm : ParsedStateMachine) :
    Option (Except ValidationError Unit) :=
  match actions_check_states sm [] sm.states_events_mapping with
  | none => none
  | some (Except.error e) => some (Except.error e)
  | some (Except.ok _) => some (Except.ok ())

/-- The per-leaf closure of `validate_guard_signatures`. -/
def guard_check_callback (in_state_data event_data : Option SynType)
    (g : AsyncIdent) (guards : SignatureMap) :
    Option (Except ValidationError SignatureMap) :=
  signature_check_step ValidationError.guardSignature g.ident
    (FunctionSignature.new_guard in_state_data event_data g.is_async) guards

/-- Innermost loop of `validate_guard_signatures`: the transitions of one
event mapping, visiting each transition's guard expression. -/
def guards_check_transitions (in_state_data event_data : Option SynType)
    (guards : SignatureMap) :
    List Transition → Option (Except ValidationError SignatureMap)
  | [] => some (Except.ok guards)
  | t :: rest =>
      match t.guard with
      | none => guards_check_transitions in_state_data event_data guards rest
      | some guard_expression =>
          match visit_guards (guard_check_callback in_state_data event_data)
              guard_expression guards with
          | none => none
          | some (Except.error e) => some (Except.error e)
          | some (Except.ok guards') =>
              guards_check_transitions in_state_data event_data guards' rest

/-- Middle loop of `validate_guard_signatures`: the second-level key is bound
but unused (`_out_state_name` in the source). -/
def guards_check_event_mappings (sm : ParsedStateMachine) (in_state_data : Option SynType)
    (guards : SignatureMap) :
    List (String × EventMapping) → Option (Except ValidationError SignatureMap)
  | [] => some (Except.ok guards)
  | (_, event_mapping) :: rest =>
      match guards_check_transitions in_state_data
          (assoc_get sm.event_data.data_types event_mapping.event)
          guards event_mapping.transitions with
      | none => none
      | some (Except.error e) => some (Except.error e)
      | some (Except.ok guards') => guards_check_event_mappings sm in_state_data guards' rest

/-- Outer loop of `validate_guard_signatures` over the source states. -/
def guards_check_states (sm : ParsedStateMachine) (guards : SignatureMap) :
    List (String × List (String × EventMapping)) → Option (Except ValidationError SignatureMap)
  | [] => some (Except.ok guards)
  | (in_state_name, from_transitions) :: rest =>
      match guards_check_event_mappings sm
          (assoc_get sm.state_data.data_types in_state_name) guards from_transitions with
      | none => none
      | some (Except.error e) => some (Except.error e)
      | some (Except.ok guards') => guards_check_states sm guards' rest

/-- `validate_guard_signatures` from `validation.rs`. -/
def validate_guard_signatures (sm : ParsedStateMachine) :
    Option (Except ValidationError Unit) :=
  match guards_check_states sm [] sm.states_events_mapping with
  | none => none
  | some (Except.error e) => some (Except.error e)
  | some (Except.ok _) => some (Except.ok ())

/-- The scan over one bundle's transitions in `validate_unreachable_transitions`,
carrying the running count of unguarded transitions seen so far. -/
def unreachable_scan (in_state event : String) (unguarded_count : Nat) :
    List Transition → Except ValidationError Unit
  | [] => Except.ok ()
  | t :: rest =>
      match t.guard with
      | some g =>
          if unguarded_count > 0 then
            Except.error (ValidationError.unreachableTransition in_state event g.render)
          else unreachable_scan in_state event unguarded_count rest
      | none =>
          if unguarded_count + 1 > 1 then
            Except.error (ValidationError.duplicateTransition in_state event)
          else unreachable_scan in_state event (unguarded_count + 1) rest

/-- One (state, event) bundle in `validate_unreachable_transitions`: only
bundles with more than a single transition are scanned. -/
def bundle_check (in_state event : String) (ts : List Transition) :
    Except ValidationError Unit :=
  if ts.length > 1 then unreachable_scan in_state event 0 ts else Except.ok ()

/-- Inner loop of `validate_unreachable_transitions` over the event mappings
of one source state. -/
def unreachable_check_event_mappings (in_state : String) :
    List (String × EventMapping) → Except ValidationError Unit
  | [] => Except.ok ()
  | (event, event_mapping) :: rest =>
      match bundle_check in_state event event_mapping.transitions with
      | Except.error e => Except.error e
      | Except.ok _ => unreachable_check_event_mappings in_state rest

/-- Outer loop of `validate_unreachable_transitions` over the source states. -/
def unreachable_check_states :
    List (String × List (String × EventMapping)) → Except ValidationError Unit
  | [] => Except.ok ()
  | (in_state, event_mappings) :: rest =>
      match unreachable_check_event_mappings in_state event_mappings with
      | Except.error e => Except.error e
      | Except.ok _ => unreachable_check_states rest

/-- `validate_unreachable_transitions` from `validation.rs`. -/
def validate_unreachable_transitions (sm : ParsedStateMachine) :
    Except ValidationError Unit :=
  unreachable_check_states sm.states_events_mapping

/-- `validate` from `validation.rs`: the three validators in order, with `?`
short-circuiting. -/
def validate (sm : ParsedStateMachine) : Option (Except ValidationError Unit) :=
  match validate_action_signatures sm with
  | none => none
  | some (Except.error e) => some (Except.error e)
  | some (Except.ok _) =>
      match validate_guard_signatures sm with
      | none => none
      | some (Except.error e) => some (Except.error e)
      | some (Except.ok _) =>
          match validate_unreachable_transitions sm with
          | Except.error e => some (Except.error e)
          | Except.ok _ => some (Except.ok ())

/-- One action call site as the traversal reaches it: the identifier, the data
the validator feeds into `FunctionSignature::new` (source-state data, event
data, and the state-data lookup of the second-level mapping key), the data
type of the transition's own target state as the spec describes the output
("the data type of the *target* state (output)", spec, section 4.2), and the
synchrony flag. -/
structure ActionSite where
  ident : String
  in_state_data : Option SynType
  event_data : Option SynType
  key_state_data : Option SynType
  out_state_data : Option SynType
  is_async : Bool
deriving DecidableEq

/-- The call signature the validator actually computes at this site. -/
def ActionSite.signature (s : ActionSite) : FunctionSignature :=
  FunctionSignature.new s.in_state_data s.event_data s.key_state_data s.is_async

/-- The (source-state data, event data, target-state data) triple the spec
attaches to this site. -/
def ActionSite.spec_triple (s : ActionSite) :
    Option SynType × Option SynType × Option SynType :=
  (s.in_state_data, s.event_data, s.out_state_data)

/-- Action call sites of one transition list, in traversal order. -/
def action_sites_transitions (sm : ParsedStateMachine)
    (in_state_data event_data key_state_data : Option SynType) :
    List Transition → List ActionSite
  | [] => []
  | t :: rest =>
      match t.action with
      | none => action_sites_transitions sm in_state_data event_data key_state_data rest
      | some a =>
          { ident := a.ident
            in_state_data := in_state_data
            event_data := event_data
            key_state_data := key_state_data
            out_state_data := assoc_get sm.state_data.data_types t.out_state
            is_async := a.is_async } ::
          action_sites_transitions sm in_state_data event_data key_state_data rest

/-- Action call sites of one source state's event mappings. -/
def action_sites_event_mappings (sm : ParsedStateMachine) (in_state_data : Option SynType) :
    List (String × EventMapping) → List ActionSite
  | [] => []
  | (out_state_name, event_mapping) :: rest =>
      action_sites_transitions sm in_state_data
        (assoc_get sm.event_data.data_types event_mapping.event)
        (assoc_get sm.state_data.data_types out_state_name)
        event_mapping.transitions ++
      action_sites_event_mappings sm in_state_data rest

/-- Action call sites of a list of source states. -/
def action_sites_states (sm : ParsedStateMachine) :
    List (String × List (String × EventMapping)) → List ActionSite
  | [] => []
  | (in_state_name, from_transitions) :: rest =>
      action_sites_event_mappings sm
        (assoc_get sm.state_data.data_types in_state_name) from_transitions ++
      action_sites_states sm rest

/-- All action call sites of a model, in the order the validator visits them. -/
def action_sites (sm : ParsedStateMachine) : List ActionSite :=
  action_sites_states sm sm.states_events_mapping

/-- The (identifier, computed signature) occurrences the action validator
checks. -/
def action_occurrences (sm : ParsedStateMachine) : SignatureMap :=
  (action_sites sm).map fun s => (s.ident, s.signature)

/-- One guard call site: identifier, the data fed into
`FunctionSignature::new_guard`, and the synchrony flag. -/
structure GuardSite where
  ident : String
  in_state_data : Option SynType
  event_data : Option SynType
  is_async : Bool
deriving DecidableEq

/-- The call signature the guard validator computes at this site. -/
def GuardSite.signature (s : GuardSite) : FunctionSignature :=
  FunctionSignature.new_guard s.in_state_data s.event_data s.is_async

/-- The (source-state data, event data) pair the spec attaches to this site. -/
def GuardSite.spec_pair (s : GuardSite) : Option SynType × Option SynType :=
  (s.in_state_data, s.event_data)

/-- The leaf guard references of a guard expression, at every nesting depth,
in visit order. -/
def guard_leaves : GuardExpression → List AsyncIdent
  | .guard g => [g]
  | .not e => guard_leaves e
  | .and l r => guard_leaves l ++ guard_leaves r
  | .or l r => guard_leaves l ++ guard_leaves r

/-- Guard call sites of one transition list (all leaves of each transition's
guard expression), in traversal order. -/
def guard_sites_transitions (in_state_data event_data : Option SynType) :
    List Transition → List GuardSite
  | [] => []
  | t :: rest =>
      (match t.guard with
       | none => []
       | some guard_expression =>
           (guard_leaves guard_expression).map fun g =>
             { ident := g.ident
               in_state_data := in_state_data
               event_data := event_data
               is_async := g.is_async }) ++
      guard_sites_transitions in_state_data event_data rest

/-- Guard call sites of one source state's event mappings. -/
def guard_sites_event_mappings (sm : ParsedStateMachine) (in_state_data : Option SynType) :
    List (String × EventMapping) → List GuardSite
  | [] => []
  | (_, event_mapping) :: rest =>
      guard_sites_transitions in_state_data
        (assoc_get sm.event_data.data_types event_mapping.event)
        event_mapping.transitions ++
      guard_sites_event_mappings sm in_state_data rest

/-- Guard call sites of a list of source states. -/
def guard_sites_states (sm : ParsedStateMachine) :
    List (String × List (String × EventMapping)) → List GuardSite
  | [] => []
  | (in_state_name, from_transitions) :: rest =>
      guard_sites_event_mappings sm
        (assoc_get sm.state_data.data_types in_state_name) from_transitions ++
      guard_sites_states sm rest

/-- All guard call sites of a model, in the order the validator visits them. -/
def guard_sites (sm : ParsedStateMachine) : List GuardSite :=
  guard_sites_states sm sm.states_events_mapping

/-- The (identifier, computed signature) occurrences the guard validator
checks. -/
def guard_occurrences (sm : ParsedStateMachine) : SignatureMap :=
  (guard_sites sm).map fun s => (s.ident, s.signature)

/-- The flattened form of either signature validator: fold
`signature_check_step` over a list of (identifier, signature) occurrences. -/
def run_check (mk_error : String → ValidationError) (m : SignatureMap) :
    List (String × FunctionSignature) → Option (Except ValidationError SignatureMap)
  | [] => some (Except.ok m)
  | (n, s) :: rest =>
      match signature_check_step mk_error n s m with
      | none => none
      | some (Except.error e) => some (Except.error e)
      | some (Except.ok m') => run_check mk_error m' rest

/-- The first-seen signature for identifier `n`: the tracking map wins,
otherwise the first occurrence in the remaining list. -/
def first_seen (m : SignatureMap) (occs : SignatureMap) (n : String) :
    Option FunctionSignature :=
  match assoc_get m n with
  | some s => some s
  | none => assoc_get occs n

/-- All occurrences of each identifier carry one and the same signature. -/
def signatures_agree (occs : SignatureMap) : Prop :=
  ∀ n s1 s2, (n, s1) ∈ occs → (n, s2) ∈ occs → s1 = s2

/-- An unguarded, actionless transition to state `C`. -/
def t_unguarded : Transition :=
  { guard := none, action := none, out_state := "C" }

/-- A transition to state `B` guarded by the plain guard `is_ready`. -/
def t_guarded : Transition :=
  { guard := some (GuardExpression.guard { ident := "is_ready", is_async := false })
    action := none
    out_state := "B" }

/-- Model for claim C1: action `a` is used at `S1 + E1 = S3` where only the
source state carries data `T`, and at `S2 + E2 = S4` where only the event
carries data `T` and the target state carries data `U`.  The two
(source-state data, event data, target-state data) triples differ in every
component, yet both computed signatures are `([T], none, sync)`. -/
def sm_c1 : ParsedStateMachine :=
  { state_data := { data_types := [("S1", "T"), ("S4", "U")] }
    event_data := { data_types := [("E2", "T")] }
    states_events_mapping :=
      [ ("S1",
          [("E1",
            { event := "E1"
              transitions :=
                [{ guard := none
                   action := some { ident := "a", is_async := false }
                   out_state := "S3" }] })])
      , ("S2",
          [("E2",
            { event := "E2"
              transitions :=
                [{ guard := none
                   action := some { ident := "a", is_async := false }
                   out_state := "S4" }] })]) ] }

/-- Model for claim C2: guard `g` is used at `S1 + E1` where only the source
state carries data `T`, and at `S2 + E2` where only the event carries data
`T`.  The two (source-state data, event data) pairs differ in both
components, yet both computed signatures are `([T], none, sync)`. -/
def sm_c2 : ParsedStateMachine :=
  { state_data := { data_types := [("S1", "T")] }
    event_data := { data_types := [("E2", "T")] }
    states_events_mapping :=
      [ ("S1",
          [("E1",
            { event := "E1"
              transitions :=
                [{ guard := some (GuardExpression.guard { ident := "g", is_async := false })
                   action := none
                   out_state := "S3" }] })])
      , ("S2",
          [("E2",
            { event := "E2"
              transitions :=
                [{ guard := some (GuardExpression.guard { ident := "g", is_async := false })
                   action := none
                   out_state := "S3" }] })]) ] }

/-- Model whose action `a` is referenced synchronously at `S + E1` and
asynchronously at `S + E2`, with identical data everywhere. -/
def sm_action_async : ParsedStateMachine :=
  { state_data := { data_types := [] }
    event_data := { data_types := [] }
    states_events_mapping :=
      [ ("S",
          [ ("E1",
             { event := "E1"
               transitions :=
                 [{ guard := none
                    action := some { ident := "a", is_async := false }
                    out_state := "S" }] })
          , ("E2",
             { event := "E2"
               transitions :=
                 [{ guard := none
                    action := some { ident := "a", is_async := true }
                    out_state := "S" }] }) ]) ] }

/-- Model whose guard `g` is referenced synchronously at `S + E1` and
asynchronously (inside a nested expression) at `S + E2`, with identical data
everywhere. -/
def sm_guard_async : ParsedStateMachine :=
  { state_data := { data_types := [] }
    event_data := { data_types := [] }
    states_events_mapping :=
      [ ("S",
          [ ("E1",
             { event := "E1"
               transitions :=
                 [{ guard := some (GuardExpression.guard { ident := "g", is_async := false })
                    action := none
                    out_state := "S" }] })
          , ("E2",
             { event := "E2"
               transitions :=
                 [{ guard := some (GuardExpression.and
                      (GuardExpression.guard { ident := "h", is_async := false })
                      (GuardExpression.not
                        (GuardExpression.guard { ident := "g", is_async := true })))
                    action := none
                    out_state := "S" }] }) ]) ] }

/-- Scenario model for claim C4: event `Tick` on state `A` has, in declared
order, an unguarded transition to `C` followed by an `is_ready`-guarded
transition to `B`. -/
def sm_c4 : ParsedStateMachine :=
  { state_data := { data_types := [] }
    event_data := { data_types := [] }
    states_events_mapping :=
      [("A", [("Tick", { event := "Tick", transitions := [t_unguarded, t_guarded] })])] }

/-- Model with two unguarded transitions for the pair `(A, E)`. -/
def sm_duplicate : ParsedStateMachine :=
  { state_data := { data_types := [] }
    event_data := { data_types := [] }
    states_events_mapping :=
      [("A",
        [("E",
          { event := "E"
            transitions :=
              [ { guard := none, action := none, out_state := "B" }
              , { guard := none, action := none, out_state := "C" } ] })])] }

/-- Model violating both action-signature consistency (action `a`, differing
synchrony) and transition reachability (duplicate unguarded transitions for
`(S, E3)`). -/
def sm_both_defects : ParsedStateMachine :=
  { state_data := { data_types := [] }
    event_data := { data_types := [] }
    states_events_mapping :=
      [ ("S",
          [ ("E1",
             { event := "E1"
               transitions :=
                 [{ guard := none
                    action := some { ident := "a", is_async := false }
                    out_state := "S" }] })
          , ("E2",
             { event := "E2"
               transitions :=
                 [{ guard := none
                    action := some { ident := "a", is_async := true }
                    out_state := "S" }] })
          , ("E3",
             { event := "E3"
               transitions :=
                 [ { guard := none, action := none, out_state := "S" }
                 , { guard := none, action := none, out_state := "S" } ] }) ]) ] }

/-- A model with one actionless, guardless transition per bundle. -/
def sm_plain : ParsedStateMachine :=
  { state_data := { data_types := [("S", "T")] }
    event_data := { data_types := [] }
    states_events_mapping :=
      [("S", [("E", { event := "E", transitions := [{ guard := none, action := none, out_state := "S" }] })])] }

theorem assoc_get_entry_or_insert_self (m : SignatureMap) (k : String)
    (v : FunctionSignature) :
    assoc_get (entry_or_insert m k v) k = some ((assoc_get m k).getD v) := by
  cases h : assoc_get m k with
  | some s => simp [entry_or_insert, h]
  | none => simp [entry_or_insert, h, assoc_get]

theorem signature_check_step_of_mem (mk_error : String → ValidationError)
    (m : SignatureMap) (k : String) (s s0 : FunctionSignature)
    (h : assoc_get m k = some s0) :
    signature_check_step mk_error k s m =
      if s0 = s then some (Except.ok m) else some (Except.error (mk_error k)) := by
  by_cases hs : s0 = s <;>
    simp [signature_check_step, entry_or_insert, h, hs]

theorem signature_check_step_of_not_mem (mk_error : String → ValidationError)
    (m : SignatureMap) (k : String) (s : FunctionSignature)
    (h : assoc_get m k = none) :
    signature_check_step mk_error k s m = some (Except.ok ((k, s) :: m)) := by
  simp [signature_check_step, entry_or_insert, h, assoc_get]

theorem run_check_cons_of_mem (mk_error : String → ValidationError)
    (m : SignatureMap) (n : String) (s : FunctionSignature)
    (rest : List (String × FunctionSignature)) (s0 : FunctionSignature)
    (h : assoc_get m n = some s0) :
    run_check mk_error m ((n, s) :: rest) =
      if s0 = s then run_check mk_error m rest
      else some (Except.error (mk_error n)) := by
  by_cases hs : s0 = s <;>
    simp [run_check, signature_check_step_of_mem mk_error m n s s0 h, hs]

theorem run_check_cons_of_not_mem (mk_error : String → ValidationError)
    (m : SignatureMap) (n : String) (s : FunctionSignature)
    (rest : List (String × FunctionSignature))
    (h : assoc_get m n = none) :
    run_check mk_error m ((n, s) :: rest) = run_check mk_error ((n, s) :: m) rest := by
  simp [run_check, signature_check_step_of_not_mem mk_error m n s h]

theorem run_check_ne_none (mk_error : String → ValidationError)
    (occs : List (String × FunctionSignature)) :
    ∀ m, run_check mk_error m occs ≠ none := by
  induction occs with
  | nil => intro m; simp [run_check]
  | cons p rest ih =>
      intro m
      obtain ⟨n, s⟩ := p
      cases h : assoc_get m n with
      | some s0 =>
          rw [run_check_cons_of_mem mk_error m n s rest s0 h]
          by_cases hs : s0 = s
          · rw [if_pos hs]; exact ih m
          · rw [if_neg hs]; simp
      | none =>
          rw [run_check_cons_of_not_mem mk_error m n s rest h]
          exact ih ((n, s) :: m)

theorem run_check_append (mk_error : String → ValidationError)
    (xs ys : List (String × FunctionSignature)) :
    ∀ m, run_check mk_error m (xs ++ ys) =
      match run_check mk_error m xs with
      | none => none
      | some (Except.error e) => some (Except.error e)
      | some (Except.ok m') => run_check mk_error m' ys := by
  induction xs with
  | nil => intro m; simp [run_check]
  | cons p rest ih =>
      intro m
      obtain ⟨n, s⟩ := p
      simp only [List.cons_append, run_check]
      cases hstep : signature_check_step mk_error n s m with
      | none => simp
      | some r =>
          cases r with
          | error e => simp
          | ok m' => simp [ih m']

theorem first_seen_cons_self_none (m : SignatureMap) (n : String)
    (s : FunctionSignature) (rest : SignatureMap) (h : assoc_get m n = none) :
    first_seen m ((n, s) :: rest) n = some s := by
  simp [first_seen, h, assoc_get]

theorem first_seen_cons_of_mem (m : SignatureMap) (n : String)
    (s : FunctionSignature) (rest : SignatureMap) (n' : String)
    (s0 : FunctionSignature) (h : assoc_get m n = some s0) :
    first_seen m ((n, s) :: rest) n' = first_seen m rest n' := by
  unfold first_seen
  cases hg : assoc_get m n' with
  | some s1 => rfl
  | none =>
      by_cases he : n = n'
      · subst he; rw [h] at hg; cases hg
      · simp [assoc_get, he]

theorem first_seen_insert (m : SignatureMap) (n : String)
    (s : FunctionSignature) (rest : SignatureMap) (n' : String)
    (h : assoc_get m n = none) :
    first_seen m ((n, s) :: rest) n' = first_seen ((n, s) :: m) rest n' := by
  by_cases he : n = n'
  · subst he; simp [first_seen, h, assoc_get]
  · simp only [first_seen, assoc_get, he, if_neg he]
    cases hg : assoc_get m n' <;> simp [hg]

theorem run_check_ok_iff (mk_error : String → ValidationError)
    (occs : List (String × FunctionSignature)) :
    ∀ m, (∃ m', run_check mk_error m occs = some (Except.ok m')) ↔
      ∀ n s, (n, s) ∈ occs → first_seen m occs n = some s := by
  induction occs with
  | nil =>
      intro m
      constructor
      · intro _ n s hm; cases hm
      · intro _; exact ⟨m, by simp [run_check]⟩
  | cons p rest ih =>
      intro m
      obtain ⟨n, s⟩ := p
      cases h : assoc_get m n with
      | some s0 =>
          rw [run_check_cons_of_mem mk_error m n s rest s0 h]
          by_cases hs : s0 = s
          · rw [if_pos hs, ih m]
            constructor
            · intro hrest n' s' hmem
              rcases List.mem_cons.mp hmem with heq | hmem'
              · obtain ⟨rfl, rfl⟩ := Prod.mk.injEq .. ▸ heq
                simp [first_seen, h, hs]
              · rw [first_seen_cons_of_mem m n s rest n' s0 h]
                exact hrest n' s' hmem'
            · intro hall n' s' hmem'
              rw [← first_seen_cons_of_mem m n s rest n' s0 h]
              exact hall n' s' (List.mem_cons_of_mem _ hmem')
          · rw [if_neg hs]
            constructor
            · rintro ⟨m', hm'⟩; cases hm'
            · intro hall
              exfalso
              have hhead := hall n s (List.mem_cons_self _ _)
              rw [first_seen, h] at hhead
              exact hs (Option.some.inj hhead)
      | none =>
          rw [run_check_cons_of_not_mem mk_error m n s rest h, ih ((n, s) :: m)]
          constructor
          · intro hrest n' s' hmem
            rcases List.mem_cons.mp hmem with heq | hmem'
            · obtain ⟨rfl, rfl⟩ := Prod.mk.injEq .. ▸ heq
              exact first_seen_cons_self_none m _ _ rest h
            · rw [first_seen_insert m n s rest n' h]
              exact hrest n' s' hmem'
          · intro hall n' s' hmem'
            rw [← first_seen_insert m n s rest n' h]
            exact hall n' s' (List.mem_cons_of_mem _ hmem')

theorem assoc_get_mem {α : Type} (l : List (String × α)) (k : String) (v : α)
    (h : assoc_get l k = some v) : (k, v) ∈ l := by
  induction l with
  | nil => cases h
  | cons p rest ih =>
      obtain ⟨k', v'⟩ := p
      rw [assoc_get] at h
      by_cases he : k' = k
      · rw [if_pos he] at h
        obtain rfl := Option.some.inj h
        subst he
        exact List.mem_cons_self _ _
      · rw [if_neg he] at h
        exact List.mem_cons_of_mem _ (ih h)

theorem assoc_get_isSome_of_mem {α : Type} (l : List (String × α)) (k : String) (v : α)
    (h : (k, v) ∈ l) : ∃ v', assoc_get l k = some v' := by
  induction l with
  | nil => cases h
  | cons p rest ih =>
      obtain ⟨k', v'⟩ := p
      rcases List.mem_cons.mp h with heq | hmem
      · obtain ⟨rfl, rfl⟩ := Prod.mk.injEq .. ▸ heq
        exact ⟨v, by simp [assoc_get]⟩
      · by_cases he : k' = k
        · exact ⟨v', by simp [assoc_get, he]⟩
        · obtain ⟨w, hw⟩ := ih hmem
          exact ⟨w, by simp [assoc_get, he, hw]⟩

theorem run_check_nil_ok_iff_agree (mk_error : String → ValidationError)
    (occs : List (String × FunctionSignature)) :
    (∃ m', run_check mk_error [] occs = some (Except.ok m')) ↔ signatures_agree occs := by
  rw [run_check_ok_iff mk_error occs []]
  have hfs : ∀ n, first_seen [] occs n = assoc_get occs n := by
    intro n; simp [first_seen, assoc_get]
  constructor
  · intro hall n s1 s2 h1 h2
    have e1 := hall n s1 h1
    have e2 := hall n s2 h2
    rw [hfs] at e1 e2
    rw [e1] at e2
    exact Option.some.inj e2
  · intro hagree n s hm
    rw [hfs]
    obtain ⟨v', hv⟩ := assoc_get_isSome_of_mem occs n s hm
    have hmem' := assoc_get_mem occs n v' hv
    rw [hv, hagree n v' s hmem' hm]
theorem run_check_error_spec (mk_error : String → ValidationError)
    (occs : List (String × FunctionSignature)) :
    ∀ m e, run_check mk_error m occs = some (Except.error e) →
      ∃ n, e = mk_error n ∧
        ((∃ s0 s1, assoc_get m n = some s0 ∧ (n, s1) ∈ occs ∧ s1 ≠ s0) ∨
          (∃ s1 s2, (n, s1) ∈ occs ∧ (n, s2) ∈ occs ∧ s1 ≠ s2)) := by
  induction occs with
  | nil => intro m e h; simp [run_check] at h
  | cons p rest ih =>
      intro m e h
      obtain ⟨n, s⟩ := p
      cases hg : assoc_get m n with
      | some s0 =>
          rw [run_check_cons_of_mem mk_error m n s rest s0 hg] at h
          by_cases hs : s0 = s
          · rw [if_pos hs] at h
            obtain ⟨n', hn', hcase⟩ := ih m e h
            refine ⟨n', hn', ?_⟩
            rcases hcase with ⟨t0, t1, hg', hm1, hne⟩ | ⟨t1, t2, hm1, hm2, hne⟩
            · exact Or.inl ⟨t0, t1, hg', List.mem_cons_of_mem _ hm1, hne⟩
            · exact Or.inr ⟨t1, t2, List.mem_cons_of_mem _ hm1,
                List.mem_cons_of_mem _ hm2, hne⟩
          · rw [if_neg hs] at h
            simp only [Option.some.injEq, Except.error.injEq] at h
            refine ⟨n, h.symm, Or.inl ⟨s0, s, hg, List.mem_cons_self _ _, ?_⟩⟩
            exact fun hc => hs hc.symm
      | none =>
          rw [run_check_cons_of_not_mem mk_error m n s rest hg] at h
          obtain ⟨n', hn', hcase⟩ := ih ((n, s) :: m) e h
          refine ⟨n', hn', ?_⟩
          rcases hcase with ⟨t0, t1, hg', hm1, hne⟩ | ⟨t1, t2, hm1, hm2, hne⟩
          · by_cases he : n = n'
            · subst he
              rw [assoc_get, if_pos rfl] at hg'
              obtain rfl := Option.some.inj hg'
              exact Or.inr ⟨t1, s, List.mem_cons_of_mem _ hm1,
                List.mem_cons_self _ _, hne⟩
            · rw [assoc_get, if_neg he] at hg'
              exact Or.inl ⟨t0, t1, hg', List.mem_cons_of_mem _ hm1, hne⟩
          · exact Or.inr ⟨t1, t2, List.mem_cons_of_mem _ hm1,
              List.mem_cons_of_mem _ hm2, hne⟩

theorem run_check_nil_error_spec (mk_error : String → ValidationError)
    (occs : List (String × FunctionSignature)) (e : ValidationError)
    (h : run_check mk_error [] occs = some (Except.error e)) :
    ∃ n s1 s2, e = mk_error n ∧ (n, s1) ∈ occs ∧ (n, s2) ∈ occs ∧ s1 ≠ s2 := by
  obtain ⟨n, hn, hcase⟩ := run_check_error_spec mk_error occs [] e h
  rcases hcase with ⟨t0, t1, hg', _, _⟩ | ⟨t1, t2, hm1, hm2, hne⟩
  · cases hg'
  · exact ⟨n, t1, t2, hn, hm1, hm2, hne⟩

theorem actions_check_transitions_eq (sm : ParsedStateMachine)
    (i e o : Option SynType) (ts : List Transition) :
    ∀ m, actions_check_transitions i e o m ts =
      run_check ValidationError.actionSignature m
        ((action_sites_transitions sm i e o ts).map fun st => (st.ident, st.signature)) := by
  induction ts with
  | nil => intro m; simp [actions_check_transitions, action_sites_transitions, run_check]
  | cons t rest ih =>
      intro m
      cases ha : t.action with
      | none => simp [actions_check_transitions, action_sites_transitions, ha, ih m]
      | some a =>
          simp only [actions_check_transitions, action_sites_transitions, ha, List.map_cons,
            run_check, ActionSite.signature]
          cases hstep : signature_check_step ValidationError.actionSignature a.ident
              (FunctionSignature.new i e o a.is_async) m with
          | none => simp [hstep]
          | some r =>
              cases r with
              | error err => simp [hstep]
              | ok m' => simp [hstep, ih m', ActionSite.signature]

theorem actions_check_event_mappings_eq (sm : ParsedStateMachine)
    (i : Option SynType) (l : List (String × EventMapping)) :
    ∀ m, actions_check_event_mappings sm i m l =
      run_check ValidationError.actionSignature m
        ((action_sites_event_mappings sm i l).map fun st => (st.ident, st.signature)) := by
  induction l with
  | nil => intro m; simp [actions_check_event_mappings, action_sites_event_mappings, run_check]
  | cons p rest ih =>
      intro m
      obtain ⟨k, em⟩ := p
      simp only [actions_check_event_mappings, action_sites_event_mappings, List.map_append]
      rw [run_check_append, actions_check_transitions_eq sm]
      cases hrc : run_check ValidationError.actionSignature m
          ((action_sites_transitions sm i (assoc_get sm.event_data.data_types em.event)
            (assoc_get sm.state_data.data_types k) em.transitions).map
              fun st => (st.ident, st.signature)) with
      | none => simp
      | some r =>
          cases r with
          | error err => simp
          | ok m' => simp [ih m']

theorem actions_check_states_eq (sm : ParsedStateMachine)
    (l : List (String × List (String × EventMapping))) :
    ∀ m, actions_check_states sm m l =
      run_check ValidationError.actionSignature m
        ((action_sites_states sm l).map fun st => (st.ident, st.signature)) := by
  induction l with
  | nil => intro m; simp [actions_check_states, action_sites_states, run_check]
  | cons p rest ih =>
      intro m
      obtain ⟨k, ems⟩ := p
      simp only [actions_check_states, action_sites_states, List.map_append]
      rw [run_check_append, actions_check_event_mappings_eq sm]
      cases hrc : run_check ValidationError.actionSignature m
          ((action_sites_event_mappings sm (assoc_get sm.state_data.data_types k) ems).map
              fun st => (st.ident, st.signature)) with
      | none => simp
      | some r =>
          cases r with
          | error err => simp
          | ok m' => simp [ih m']

theorem validate_action_signatures_eq (sm : ParsedStateMachine) :
    validate_action_signatures sm =
      match run_check ValidationError.actionSignature [] (action_occurrences sm) with
      | none => none
      | some (Except.error e) => some (Except.error e)
      | some (Except.ok _) => some (Except.ok ()) := by
  unfold validate_action_signatures action_occurrences action_sites
  rw [actions_check_states_eq sm sm.states_events_mapping []]

theorem validate_action_signatures_isSome (sm : ParsedStateMachine) :
    (validate_action_signatures sm).isSome = true := by
  rw [validate_action_signatures_eq]
  cases hrc : run_check ValidationError.actionSignature [] (action_occurrences sm) with
  | none => exact absurd hrc (run_check_ne_none _ _ [])
  | some r => cases r <;> rfl

theorem validate_action_signatures_ok_iff (sm : ParsedStateMachine) :
    validate_action_signatures sm = some (Except.ok ()) ↔
      signatures_agree (action_occurrences sm) := by
  rw [validate_action_signatures_eq]
  cases hrc : run_check ValidationError.actionSignature [] (action_occurrences sm) with
  | none => exact absurd hrc (run_check_ne_none _ _ [])
  | some r =>
      cases r with
      | error e =>
          simp only []
          constructor
          · intro h; cases h
          · intro hagree
            exfalso
            obtain ⟨m', hm'⟩ := (run_check_nil_ok_iff_agree
              ValidationError.actionSignature (action_occurrences sm)).mpr hagree
            rw [hrc] at hm'
            cases hm'
      | ok m' =>
          simp only []
          constructor
          · intro _
            exact (run_check_nil_ok_iff_agree ValidationError.actionSignature
              (action_occurrences sm)).mp ⟨m', hrc⟩
          · intro _; trivial

theorem validate_action_signatures_error_spec (sm : ParsedStateMachine)
    (e : ValidationError)
    (h : validate_action_signatures sm = some (Except.error e)) :
    ∃ n s1 s2, e = ValidationError.actionSignature n ∧
      (n, s1) ∈ action_occurrences sm ∧ (n, s2) ∈ action_occurrences sm ∧ s1 ≠ s2 := by
  rw [validate_action_signatures_eq] at h
  cases hrc : run_check ValidationError.actionSignature [] (action_occurrences sm) with
  | none => exact absurd hrc (run_check_ne_none _ _ [])
  | some r =>
      cases r with
      | error e' =>
          rw [hrc] at h
          simp only [Option.some.injEq, Except.error.injEq] at h
          subst h
          exact run_check_nil_error_spec ValidationError.actionSignature
            (action_occurrences sm) e' hrc
      | ok m' =>
          rw [hrc] at h
          cases h

theorem visit_guards_eq (i e : Option SynType) (ge : GuardExpression) :
    ∀ m, visit_guards (guard_check_callback i e) ge m =
      run_check ValidationError.guardSignature m
        ((guard_leaves ge).map fun g =>
          (g.ident, FunctionSignature.new_guard i e g.is_async)) := by
  induction ge with
  | guard g =>
      intro m
      simp only [visit_guards, guard_leaves, List.map_cons, List.map_nil, run_check,
        guard_check_callback]
      cases hstep : signature_check_step ValidationError.guardSignature g.ident
          (FunctionSignature.new_guard i e g.is_async) m with
      | none => rfl
      | some r => cases r <;> rfl
  | not ge ih => intro m; simp only [visit_guards, guard_leaves]; exact ih m
  | and l r ihl ihr =>
      intro m
      simp only [visit_guards, guard_leaves, List.map_append]
      rw [run_check_append, ihl m]
      cases hrc : run_check ValidationError.guardSignature m
          ((guard_leaves l).map fun g =>
            (g.ident, FunctionSignature.new_guard i e g.is_async)) with
      | none => rfl
      | some res =>
          cases res with
          | error err => rfl
          | ok m' => exact ihr m'
  | or l r ihl ihr =>
      intro m
      simp only [visit_guards, guard_leaves, List.map_append]
      rw [run_check_append, ihl m]
      cases hrc : run_check ValidationError.guardSignature m
          ((guard_leaves l).map fun g =>
            (g.ident, FunctionSignature.new_guard i e g.is_async)) with
      | none => rfl
      | some res =>
          cases res with
          | error err => rfl
          | ok m' => exact ihr m'

theorem guards_check_transitions_eq (i e : Option SynType) (ts : List Transition) :
    ∀ m, guards_check_transitions i e m ts =
      run_check ValidationError.guardSignature m
        ((guard_sites_transitions i e ts).map fun st => (st.ident, st.signature)) := by
  induction ts with
  | nil => intro m; simp [guards_check_transitions, guard_sites_transitions, run_check]
  | cons t rest ih =>
      intro m
      cases hgg : t.guard with
      | none => simp [guards_check_transitions, guard_sites_transitions, hgg, ih m]
      | some ge =>
          simp only [guards_check_transitions, guard_sites_transitions, hgg, List.map_append,
            List.map_map]
          rw [run_check_append, visit_guards_eq i e ge m]
          have hcomp : ((fun st => (st.ident, st.signature)) ∘ fun g : AsyncIdent =>
              ({ ident := g.ident, in_state_data := i, event_data := e,
                 is_async := g.is_async } : GuardSite)) =
              fun g : AsyncIdent => (g.ident, FunctionSignature.new_guard i e g.is_async) := by
            funext g
            simp [Function.comp, GuardSite.signature]
          rw [hcomp]
          cases hrc : run_check ValidationError.guardSignature m
              ((guard_leaves ge).map fun g =>
                (g.ident, FunctionSignature.new_guard i e g.is_async)) with
          | none => rfl
          | some r =>
              cases r with
              | error err => rfl
              | ok m' => exact ih m'

theorem guards_check_event_mappings_eq (sm : ParsedStateMachine)
    (i : Option SynType) (l : List (String × EventMapping)) :
    ∀ m, guards_check_event_mappings sm i m l =
      run_check ValidationError.guardSignature m
        ((guard_sites_event_mappings sm i l).map fun st => (st.ident, st.signature)) := by
  induction l with
  | nil => intro m; simp [guards_check_event_mappings, guard_sites_event_mappings, run_check]
  | cons p rest ih =>
      intro m
      obtain ⟨k, em⟩ := p
      simp only [guards_check_event_mappings, guard_sites_event_mappings, List.map_append]
      rw [run_check_append, guards_check_transitions_eq]
      cases hrc : run_check ValidationError.guardSignature m
          ((guard_sites_transitions i (assoc_get sm.event_data.data_types em.event)
            em.transitions).map fun st => (st.ident, st.signature)) with
      | none => simp
      | some r =>
          cases r with
          | error err => simp
          | ok m' => simp [ih m']

theorem guards_check_states_eq (sm : ParsedStateMachine)
    (l : List (String × List (String × EventMapping))) :
    ∀ m, guards_check_states sm m l =
      run_check ValidationError.guardSignature m
        ((guard_sites_states sm l).map fun st => (st.ident, st.signature)) := by
  induction l with
  | nil => intro m; simp [guards_check_states, guard_sites_states, run_check]
  | cons p rest ih =>
      intro m
      obtain ⟨k, ems⟩ := p
      simp only [guards_check_states, guard_sites_states, List.map_append]
      rw [run_check_append, guards_check_event_mappings_eq sm]
      cases hrc : run_check ValidationError.guardSignature m
          ((guard_sites_event_mappings sm (assoc_get sm.state_data.data_types k) ems).map
              fun st => (st.ident, st.signature)) with
      | none => simp
      | some r =>
          cases r with
          | error err => simp
          | ok m' => simp [ih m']

theorem validate_guard_signatures_eq (sm : ParsedStateMachine) :
    validate_guard_signatures sm =
      match run_check ValidationError.guardSignature [] (guard_occurrences sm) with
      | none => none
      | some (Except.error e) => some (Except.error e)
      | some (Except.ok _) => some (Except.ok ()) := by
  unfold validate_guard_signatures guard_occurrences guard_sites
  rw [guards_check_states_eq sm sm.states_events_mapping []]

theorem validate_guard_signatures_isSome (sm : ParsedStateMachine) :
    (validate_guard_signatures sm).isSome = true := by
  rw [validate_guard_signatures_eq]
  cases hrc : run_check ValidationError.guardSignature [] (guard_occurrences sm) with
  | none => exact absurd hrc (run_check_ne_none _ _ [])
  | some r => cases r <;> rfl

theorem validate_guard_signatures_ok_iff (sm : ParsedStateMachine) :
    validate_guard_signatures sm = some (Except.ok ()) ↔
      signatures_agree (guard_occurrences sm) := by
  rw [validate_guard_signatures_eq]
  cases hrc : run_check ValidationError.guardSignature [] (guard_occurrences sm) with
  | none => exact absurd hrc (run_check_ne_none _ _ [])
  | some r =>
      cases r with
      | error e =>
          simp only []
          constructor
          · intro h; cases h
          · intro hagree
            exfalso
            obtain ⟨m', hm'⟩ := (run_check_nil_ok_iff_agree
              ValidationError.guardSignature (guard_occurrences sm)).mpr hagree
            rw [hrc] at hm'
            cases hm'
      | ok m' =>
          simp only []
          constructor
          · intro _
            exact (run_check_nil_ok_iff_agree ValidationError.guardSignature
              (guard_occurrences sm)).mp ⟨m', hrc⟩
          · intro _; trivial

theorem validate_guard_signatures_error_spec (sm : ParsedStateMachine)
    (e : ValidationError)
    (h : validate_guard_signatures sm = some (Except.error e)) :
    ∃ n s1 s2, e = ValidationError.guardSignature n ∧
      (n, s1) ∈ guard_occurrences sm ∧ (n, s2) ∈ guard_occurrences sm ∧ s1 ≠ s2 := by
  rw [validate_guard_signatures_eq] at h
  cases hrc : run_check ValidationError.guardSignature [] (guard_occurrences sm) with
  | none => exact absurd hrc (run_check_ne_none _ _ [])
  | some r =>
      cases r with
      | error e' =>
          rw [hrc] at h
          simp only [Option.some.injEq, Except.error.injEq] at h
          subst h
          exact run_check_nil_error_spec ValidationError.guardSignature
            (guard_occurrences sm) e' hrc
      | ok m' =>
          rw [hrc] at h
          cases h

theorem unreachable_check_event_mappings_ok_iff (s : String) :
    ∀ l : List (String × EventMapping),
      unreachable_check_event_mappings s l = Except.ok () ↔
        ∀ e em, (e, em) ∈ l → bundle_check s e em.transitions = Except.ok () := by
  intro l
  induction l with
  | nil =>
      constructor
      · intro _ e em hm; cases hm
      · intro _; rfl
  | cons p rest ih =>
      obtain ⟨e0, em0⟩ := p
      rw [unreachable_check_event_mappings]
      cases hb : bundle_check s e0 em0.transitions with
      | error err =>
          constructor
          · intro h; cases h
          · intro hall
            exact absurd (hall e0 em0 (List.mem_cons_self _ _)) (by rw [hb]; simp)
      | ok u =>
          cases u
          simp only []
          rw [ih]
          constructor
          · intro hall e em hm
            rcases List.mem_cons.mp hm with heq | hm'
            · obtain ⟨rfl, rfl⟩ := Prod.mk.injEq .. ▸ heq
              exact hb
            · exact hall e em hm'
          · intro hall e em hm'
            exact hall e em (List.mem_cons_of_mem _ hm')

theorem unreachable_check_states_ok_iff :
    ∀ l : List (String × List (String × EventMapping)),
      unreachable_check_states l = Except.ok () ↔
        ∀ s ems, (s, ems) ∈ l → ∀ e em, (e, em) ∈ ems →
          bundle_check s e em.transitions = Except.ok () := by
  intro l
  induction l with
  | nil =>
      constructor
      · intro _ s ems hm; cases hm
      · intro _; rfl
  | cons p rest ih =>
      obtain ⟨s0, ems0⟩ := p
      rw [unreachable_check_states]
      cases hb : unreachable_check_event_mappings s0 ems0 with
      | error err =>
          constructor
          · intro h; cases h
          · intro hall
            have : unreachable_check_event_mappings s0 ems0 = Except.ok () :=
              (unreachable_check_event_mappings_ok_iff s0 ems0).mpr
                (fun e em hm => hall s0 ems0 (List.mem_cons_self _ _) e em hm)
            rw [hb] at this
            cases this
      | ok u =>
          cases u
          simp only []
          rw [ih]
          constructor
          · intro hall s ems hm
            rcases List.mem_cons.mp hm with heq | hm'
            · obtain ⟨rfl, rfl⟩ := Prod.mk.injEq .. ▸ heq
              exact (unreachable_check_event_mappings_ok_iff _ _).mp hb
            · exact hall s ems hm'
          · intro hall s ems hm'
            exact hall s ems (List.mem_cons_of_mem _ hm')

theorem validate_unreachable_transitions_ok_iff (sm : ParsedStateMachine) :
    validate_unreachable_transitions sm = Except.ok () ↔
      ∀ s ems, (s, ems) ∈ sm.states_events_mapping → ∀ e em, (e, em) ∈ ems →
        bundle_check s e em.transitions = Except.ok () :=
  unreachable_check_states_ok_iff sm.states_events_mapping

theorem unreachable_check_event_mappings_error (s : String) :
    ∀ (l : List (String × EventMapping)) (err : ValidationError),
      unreachable_check_event_mappings s l = Except.error err →
        ∃ e em, (e, em) ∈ l ∧ bundle_check s e em.transitions = Except.error err := by
  intro l
  induction l with
  | nil => intro err h; cases h
  | cons p rest ih =>
      intro err h
      obtain ⟨e0, em0⟩ := p
      rw [unreachable_check_event_mappings] at h
      cases hb : bundle_check s e0 em0.transitions with
      | error e' =>
          rw [hb] at h
          obtain rfl := (Except.error.injEq .. ▸ h : e' = err)
          exact ⟨e0, em0, List.mem_cons_self _ _, hb⟩
      | ok u =>
          cases u
          rw [hb] at h
          obtain ⟨e, em, hm, hbc⟩ := ih err h
          exact ⟨e, em, List.mem_cons_of_mem _ hm, hbc⟩

theorem unreachable_check_states_error :
    ∀ (l : List (String × List (String × EventMapping))) (err : ValidationError),
      unreachable_check_states l = Except.error err →
        ∃ s ems e em, (s, ems) ∈ l ∧ (e, em) ∈ ems ∧
          bundle_check s e em.transitions = Except.error err := by
  intro l
  induction l with
  | nil => intro err h; cases h
  | cons p rest ih =>
      intro err h
      obtain ⟨s0, ems0⟩ := p
      rw [unreachable_check_states] at h
      cases hb : unreachable_check_event_mappings s0 ems0 with
      | error e' =>
          rw [hb] at h
          have he : e' = err := Except.error.inj h
          obtain ⟨e, em, hm, hbc⟩ := unreachable_check_event_mappings_error s0 ems0 e' hb
          exact ⟨s0, ems0, e, em, List.mem_cons_self _ _, hm, he ▸ hbc⟩
      | ok u =>
          cases u
          rw [hb] at h
          obtain ⟨s, ems, e, em, hm1, hm2, hbc⟩ := ih err h
          exact ⟨s, ems, e, em, List.mem_cons_of_mem _ hm1, hm2, hbc⟩

theorem unreachable_scan_error_shape (s e : String) :
    ∀ (ts : List Transition) (c : Nat) (err : ValidationError),
      unreachable_scan s e c ts = Except.error err →
        (∃ g, err = ValidationError.unreachableTransition s e g) ∨
          err = ValidationError.duplicateTransition s e := by
  intro ts
  induction ts with
  | nil => intro c err h; cases h
  | cons t rest ih =>
      intro c err h
      cases hg : t.guard with
      | some g =>
          simp only [unreachable_scan, hg] at h
          by_cases hc : c > 0
          · rw [if_pos hc] at h
            exact Or.inl ⟨g.render, (Except.error.inj h).symm⟩
          · rw [if_neg hc] at h
            exact ih c err h
      | none =>
          simp only [unreachable_scan, hg] at h
          by_cases hc : c + 1 > 1
          · rw [if_pos hc] at h
            exact Or.inr (Except.error.inj h).symm
          · rw [if_neg hc] at h
            exact ih (c + 1) err h

theorem bundle_check_error_shape (s e : String) (ts : List Transition)
    (err : ValidationError) (h : bundle_check s e ts = Except.error err) :
    ts.length > 1 ∧
      ((∃ g, err = ValidationError.unreachableTransition s e g) ∨
        err = ValidationError.duplicateTransition s e) := by
  rw [bundle_check] at h
  by_cases hl : ts.length > 1
  · rw [if_pos hl] at h
    exact ⟨hl, unreachable_scan_error_shape s e ts 0 err h⟩
  · rw [if_neg hl] at h
    cases h

theorem bundle_check_single (s e : String) (t : Transition) :
    bundle_check s e [t] = Except.ok () := by
  simp [bundle_check]

theorem bundle_check_unguarded_guarded (s e : String) (t1 t2 : Transition)
    (g : GuardExpression) (h1 : t1.guard = none) (h2 : t2.guard = some g) :
    bundle_check s e [t1, t2] =
      Except.error (ValidationError.unreachableTransition s e g.render) := by
  simp [bundle_check, unreachable_scan, h1, h2]

theorem bundle_check_guarded_unguarded (s e : String) (t1 t2 : Transition)
    (g : GuardExpression) (h1 : t1.guard = some g) (h2 : t2.guard = none) :
    bundle_check s e [t1, t2] = Except.ok () := by
  simp [bundle_check, unreachable_scan, h1, h2]

theorem bundle_check_guarded_guarded (s e : String) (t1 t2 : Transition)
    (g1 g2 : GuardExpression) (h1 : t1.guard = some g1) (h2 : t2.guard = some g2) :
    bundle_check s e [t1, t2] = Except.ok () := by
  simp [bundle_check, unreachable_scan, h1, h2]

theorem bundle_check_unguarded_unguarded (s e : String) (t1 t2 : Transition)
    (h1 : t1.guard = none) (h2 : t2.guard = none) :
    bundle_check s e [t1, t2] =
      Except.error (ValidationError.duplicateTransition s e) := by
  simp [bundle_check, unreachable_scan, h1, h2]

theorem validate_of_action_error (sm : ParsedStateMachine) (e : ValidationError)
    (h : validate_action_signatures sm = some (Except.error e)) :
    validate sm = some (Except.error e) := by
  simp [validate, h]

theorem validate_ok_iff (sm : ParsedStateMachine) :
    validate sm = some (Except.ok ()) ↔
      validate_action_signatures sm = some (Except.ok ()) ∧
        validate_guard_signatures sm = some (Except.ok ()) ∧
        validate_unreachable_transitions sm = Except.ok () := by
  cases ha : validate_action_signatures sm with
  | none =>
      have := validate_action_signatures_isSome sm
      rw [ha] at this
      cases this
  | some ra =>
      cases ra with
      | error ea => simp [validate, ha]
      | ok ua =>
          cases ua
          cases hg : validate_guard_signatures sm with
          | none =>
              have := validate_guard_signatures_isSome sm
              rw [hg] at this
              cases this
          | some rg =>
              cases rg with
              | error eg => simp [validate, ha, hg]
              | ok ug =>
                  cases ug
                  cases hu : validate_unreachable_transitions sm with
                  | error eu => simp [validate, ha, hg, hu]
                  | ok uu =>
                      cases uu
                      simp [validate, ha, hg, hu]

theorem validate_isSome (sm : ParsedStateMachine) : (validate sm).isSome = true := by
  cases ha : validate_action_signatures sm with
  | none =>
      have := validate_action_signatures_isSome sm
      rw [ha] at this
      cases this
  | some ra =>
      cases ra with
      | error ea => simp [validate, ha]
      | ok ua =>
          cases ua
          cases hg : validate_guard_signatures sm with
          | none =>
              have := validate_guard_signatures_isSome sm
              rw [hg] at this
              cases this
          | some rg =>
              cases rg with
              | error eg => simp [validate, ha, hg]
              | ok ug =>
                  cases ug
                  cases hu : validate_unreachable_transitions sm with
                  | error eu => simp [validate, ha, hg, hu]
                  | ok uu => cases uu; simp [validate, ha, hg, hu]

theorem validate_error_cases (sm : ParsedStateMachine) (e : ValidationError)
    (h : validate sm = some (Except.error e)) :
    validate_action_signatures sm = some (Except.error e) ∨
      (validate_action_signatures sm = some (Except.ok ()) ∧
        validate_guard_signatures sm = some (Except.error e)) ∨
      (validate_action_signatures sm = some (Except.ok ()) ∧
        validate_guard_signatures sm = some (Except.ok ()) ∧
        validate_unreachable_transitions sm = Except.error e) := by
  cases ha : validate_action_signatures sm with
  | none =>
      have := validate_action_signatures_isSome sm
      rw [ha] at this
      cases this
  | some ra =>
      cases ra with
      | error ea =>
          rw [validate_of_action_error sm ea ha] at h
          obtain rfl := (Except.error.inj (Option.some.inj h))
          exact Or.inl rfl
      | ok ua =>
          cases ua
          cases hg : validate_guard_signatures sm with
          | none =>
              have := validate_guard_signatures_isSome sm
              rw [hg] at this
              cases this
          | some rg =>
              cases rg with
              | error eg =>
                  have hv : validate sm = some (Except.error eg) := by simp [validate, ha, hg]
                  rw [hv] at h
                  obtain rfl := (Except.error.inj (Option.some.inj h))
                  exact Or.inr (Or.inl ⟨rfl, rfl⟩)
              | ok ug =>
                  cases ug
                  cases hu : validate_unreachable_transitions sm with
                  | error eu =>
                      have hv : validate sm = some (Except.error eu) := by
                        simp [validate, ha, hg, hu]
                      rw [hv] at h
                      obtain rfl := (Except.error.inj (Option.some.inj h))
                      exact Or.inr (Or.inr ⟨rfl, rfl, rfl⟩)
                  | ok uu =>
                      cases uu
                      have hv : validate sm = some (Except.ok ()) := by
                        simp [validate, ha, hg, hu]
                      rw [hv] at h
                      cases h

theorem action_sites_transitions_nil (sm : ParsedStateMachine)
    (i e o : Option SynType) :
    ∀ ts : List Transition, (∀ t ∈ ts, t.action = none) →
      action_sites_transitions sm i e o ts = [] := by
  intro ts
  induction ts with
  | nil => intro _; rfl
  | cons t rest ih =>
      intro h
      have ht := h t (List.mem_cons_self _ _)
      simp only [action_sites_transitions, ht]
      exact ih fun t' ht' => h t' (List.mem_cons_of_mem _ ht')

theorem action_sites_event_mappings_nil (sm : ParsedStateMachine)
    (i : Option SynType) :
    ∀ l : List (String × EventMapping),
      (∀ k em, (k, em) ∈ l → ∀ t ∈ em.transitions, t.action = none) →
      action_sites_event_mappings sm i l = [] := by
  intro l
  induction l with
  | nil => intro _; rfl
  | cons p rest ih =>
      intro h
      obtain ⟨k, em⟩ := p
      simp only [action_sites_event_mappings]
      rw [action_sites_transitions_nil sm _ _ _ _
          (h k em (List.mem_cons_self _ _)),
        ih fun k' em' hm => h k' em' (List.mem_cons_of_mem _ hm)]
      rfl

theorem action_sites_nil (sm : ParsedStateMachine)
    (h : ∀ s ems, (s, ems) ∈ sm.states_events_mapping → ∀ e em, (e, em) ∈ ems →
      ∀ t ∈ em.transitions, t.action = none) :
    action_sites sm = [] := by
  rw [action_sites]
  have : ∀ l : List (String × List (String × EventMapping)),
      (∀ s ems, (s, ems) ∈ l → ∀ e em, (e, em) ∈ ems →
        ∀ t ∈ em.transitions, t.action = none) →
      action_sites_states sm l = [] := by
    intro l
    induction l with
    | nil => intro _; rfl
    | cons p rest ih =>
        intro hl
        obtain ⟨s, ems⟩ := p
        simp only [action_sites_states]
        rw [action_sites_event_mappings_nil sm _ ems
            (fun k em hm => hl s ems (List.mem_cons_self _ _) k em hm),
          ih fun s' ems' hm => hl s' ems' (List.mem_cons_of_mem _ hm)]
        rfl
  exact this sm.states_events_mapping h

theorem guard_sites_transitions_nil (i e : Option SynType) :
    ∀ ts : List Transition, (∀ t ∈ ts, t.guard = none) →
      guard_sites_transitions i e ts = [] := by
  intro ts
  induction ts with
  | nil => intro _; rfl
  | cons t rest ih =>
      intro h
      have ht := h t (List.mem_cons_self _ _)
      simp only [guard_sites_transitions, ht]
      rw [ih fun t' ht' => h t' (List.mem_cons_of_mem _ ht')]
      rfl

theorem guard_sites_event_mappings_nil (sm : ParsedStateMachine)
    (i : Option SynType) :
    ∀ l : List (String × EventMapping),
      (∀ k em, (k, em) ∈ l → ∀ t ∈ em.transitions, t.guard = none) →
      guard_sites_event_mappings sm i l = [] := by
  intro l
  induction l with
  | nil => intro _; rfl
  | cons p rest ih =>
      intro h
      obtain ⟨k, em⟩ := p
      simp only [guard_sites_event_mappings]
      rw [guard_sites_transitions_nil _ _ _
          (h k em (List.mem_cons_self _ _)),
        ih fun k' em' hm => h k' em' (List.mem_cons_of_mem _ hm)]
      rfl

theorem guard_sites_nil (sm : ParsedStateMachine)
    (h : ∀ s ems, (s, ems) ∈ sm.states_events_mapping → ∀ e em, (e, em) ∈ ems →
      ∀ t ∈ em.transitions, t.guard = none) :
    guard_sites sm = [] := by
  rw [guard_sites]
  have : ∀ l : List (String × List (String × EventMapping)),
      (∀ s ems, (s, ems) ∈ l → ∀ e em, (e, em) ∈ ems →
        ∀ t ∈ em.transitions, t.guard = none) →
      guard_sites_states sm l = [] := by
    intro l
    induction l with
    | nil => intro _; rfl
    | cons p rest ih =>
        intro hl
        obtain ⟨s, ems⟩ := p
        simp only [guard_sites_states]
        rw [guard_sites_event_mappings_nil sm _ ems
            (fun k em hm => hl s ems (List.mem_cons_self _ _) k em hm),
          ih fun s' ems' hm => hl s' ems' (List.mem_cons_of_mem _ hm)]
        rfl
  exact this sm.states_events_mapping h

theorem action_occurrence_of_site (sm : ParsedStateMachine) (st : ActionSite)
    (h : st ∈ action_sites sm) : (st.ident, st.signature) ∈ action_occurrences sm :=
  List.mem_map_of_mem _ h

theorem guard_occurrence_of_site (sm : ParsedStateMachine) (st : GuardSite)
    (h : st ∈ guard_sites sm) : (st.ident, st.signature) ∈ guard_occurrences sm :=
  List.mem_map_of_mem _ h

/-- Claim C1, counterexample: in `sm_c1` the action `a` appears at two
transitions whose (source-state data, event data, target-state data) triples
differ in every component — `(some T, none, none)` against
`(none, some T, some U)` — yet `validate_action_signatures` succeeds, because
the validator merges the source-state and event data into one argument list
(both sites yield arguments `[T]`) and its output component is the state-data
lookup of the second-level mapping key (`none` at both sites), not the
target-state data. -/
theorem c1_counterexample :
    (action_sites sm_c1).map ActionSite.ident = ["a", "a"] ∧
    (action_sites sm_c1).map ActionSite.spec_triple =
      [(some "T", none, none), (none, some "T", some "U")] ∧
    ((some "T", none, none) : Option SynType × Option SynType × Option SynType) ≠
      (none, some "T", some "U") ∧
    validate_action_signatures sm_c1 = some (Except.ok ()) :=
  ⟨rfl, rfl, by decide, rfl⟩

/-- Claim C1 (amended): `validate_action_signatures` succeeds exactly when all
occurrences of each action identifier carry the same *computed* call
signature — the argument list merging the optional source-state data type and
the optional event data type, the result component obtained by looking up the
second-level mapping key in the state-data map, and the synchrony flag — and
every error it returns is an action-signature error naming an action that has
two call sites with differing computed signatures. -/
theorem c1_action_signature_consistency (sm : ParsedStateMachine) :
    (validate_action_signatures sm = some (Except.ok ()) ↔
      signatures_agree (action_occurrences sm)) ∧
    (∀ e, validate_action_signatures sm = some (Except.error e) →
      ∃ n s1 s2, e = ValidationError.actionSignature n ∧
        (n, s1) ∈ action_occurrences sm ∧ (n, s2) ∈ action_occurrences sm ∧ s1 ≠ s2) :=
  ⟨validate_action_signatures_ok_iff sm,
    fun e h => validate_action_signatures_error_spec sm e h⟩

/-- Claim C1, witness: on `sm_action_async` the validator rejects with an
error naming `a`, and the theorem yields two differing occurrences of `a`. -/
theorem c1_witness :
    ∃ n s1 s2, ValidationError.actionSignature "a" = ValidationError.actionSignature n ∧
      (n, s1) ∈ action_occurrences sm_action_async ∧
      (n, s2) ∈ action_occurrences sm_action_async ∧ s1 ≠ s2 :=
  (c1_action_signature_consistency sm_action_async).2
    (ValidationError.actionSignature "a") rfl

/-- Claim C2, counterexample: in `sm_c2` the guard `g` appears under two
transitions whose (source-state data, event data) pairs differ in both
components — `(some T, none)` against `(none, some T)` — yet
`validate_guard_signatures` succeeds, because the validator merges the two
optional data types into one argument list and both sites yield `[T]`. -/
theorem c2_counterexample :
    (guard_sites sm_c2).map GuardSite.ident = ["g", "g"] ∧
    (guard_sites sm_c2).map GuardSite.spec_pair =
      [(some "T", none), (none, some "T")] ∧
    ((some "T", none) : Option SynType × Option SynType) ≠ (none, some "T") ∧
    validate_guard_signatures sm_c2 = some (Except.ok ()) :=
  ⟨rfl, rfl, by decide, rfl⟩

/-- Claim C2 (amended): `validate_guard_signatures` succeeds exactly when all
leaf occurrences of each guard identifier — at every nesting depth of the
boolean guard expressions, none skipped — carry the same computed call
signature (the argument list merging the optional source-state data type and
the optional event data type, plus the synchrony flag), and every error it
returns is a guard-signature error naming a guard that has two leaf
occurrences with differing computed signatures. -/
theorem c2_guard_signature_consistency (sm : ParsedStateMachine) :
    (validate_guard_signatures sm = some (Except.ok ()) ↔
      signatures_agree (guard_occurrences sm)) ∧
    (∀ e, validate_guard_signatures sm = some (Except.error e) →
      ∃ n s1 s2, e = ValidationError.guardSignature n ∧
        (n, s1) ∈ guard_occurrences sm ∧ (n, s2) ∈ guard_occurrences sm ∧ s1 ≠ s2) :=
  ⟨validate_guard_signatures_ok_iff sm,
    fun e h => validate_guard_signatures_error_spec sm e h⟩

/-- Claim C2, witness: on `sm_guard_async` — whose second occurrence of `g`
sits nested inside `h && !g` — the validator rejects with an error naming
`g`, and the theorem yields two differing occurrences of `g`. -/
theorem c2_witness :
    ∃ n s1 s2, ValidationError.guardSignature "g" = ValidationError.guardSignature n ∧
      (n, s1) ∈ guard_occurrences sm_guard_async ∧
      (n, s2) ∈ guard_occurrences sm_guard_async ∧ s1 ≠ s2 :=
  (c2_guard_signature_consistency sm_guard_async).2
    (ValidationError.guardSignature "g") rfl

/-- Claim C3: for a two-transition bundle scanned in declared order,
`[unguarded, guarded]` fails with the unreachable-transition error,
`[guarded, unguarded]` succeeds, `[guarded, guarded]` succeeds, and
`[unguarded, unguarded]` fails with the duplicate error; and
`validate_unreachable_transitions` succeeds exactly when every bundle of the
model passes this per-bundle check. -/
theorem c3_ordering_cases (s e : String) (t1 t2 : Transition) :
    (∀ g, t1.guard = none → t2.guard = some g →
      bundle_check s e [t1, t2] =
        Except.error (ValidationError.unreachableTransition s e g.render)) ∧
    (∀ g, t1.guard = some g → t2.guard = none →
      bundle_check s e [t1, t2] = Except.ok ()) ∧
    (∀ g1 g2, t1.guard = some g1 → t2.guard = some g2 →
      bundle_check s e [t1, t2] = Except.ok ()) ∧
    (t1.guard = none → t2.guard = none →
      bundle_check s e [t1, t2] =
        Except.error (ValidationError.duplicateTransition s e)) ∧
    (∀ sm : ParsedStateMachine, validate_unreachable_transitions sm = Except.ok () ↔
      ∀ st ems, (st, ems) ∈ sm.states_events_mapping → ∀ ev em, (ev, em) ∈ ems →
        bundle_check st ev em.transitions = Except.ok ()) :=
  ⟨fun g h1 h2 => bundle_check_unguarded_guarded s e t1 t2 g h1 h2,
   fun g h1 h2 => bundle_check_guarded_unguarded s e t1 t2 g h1 h2,
   fun g1 g2 h1 h2 => bundle_check_guarded_guarded s e t1 t2 g1 g2 h1 h2,
   fun h1 h2 => bundle_check_unguarded_unguarded s e t1 t2 h1 h2,
   fun sm => validate_unreachable_transitions_ok_iff sm⟩

/-- Claim C3, witness: the four orderings evaluated on concrete transitions. -/
theorem c3_witness :
    bundle_check "A" "E" [t_unguarded, t_guarded] =
      Except.error (ValidationError.unreachableTransition "A" "E" "is_ready") ∧
    bundle_check "A" "E" [t_guarded, t_unguarded] = Except.ok () ∧
    bundle_check "A" "E" [t_guarded, t_guarded] = Except.ok () ∧
    bundle_check "A" "E" [t_unguarded, t_unguarded] =
      Except.error (ValidationError.duplicateTransition "A" "E") :=
  ⟨(c3_ordering_cases "A" "E" t_unguarded t_guarded).1 _ rfl rfl,
   (c3_ordering_cases "A" "E" t_guarded t_unguarded).2.1 _ rfl rfl,
   (c3_ordering_cases "A" "E" t_guarded t_guarded).2.2.1 _ _ rfl rfl,
   (c3_ordering_cases "A" "E" t_unguarded t_unguarded).2.2.2.1 rfl rfl⟩

/-- Claim C4: the unreachable-transition check applies jointly to all
transitions of one (source state, event) bundle even when they lead to
different target states: any model whose bundle at some (state, event) pair
holds, in declared order, an unguarded transition followed by a guarded one —
with distinct target states — is rejected by `validate`. -/
theorem c4_joint_bundle (sm : ParsedStateMachine) (s e : String)
    (ems : List (String × EventMapping)) (em : EventMapping)
    (t1 t2 : Transition) (g : GuardExpression)
    (hs : (s, ems) ∈ sm.states_events_mapping) (he : (e, em) ∈ ems)
    (hts : em.transitions = [t1, t2])
    (h1 : t1.guard = none) (h2 : t2.guard = some g)
    (hout : t1.out_state ≠ t2.out_state) :
    ∃ err, validate sm = some (Except.error err) := by
  have hbundle : bundle_check s e em.transitions =
      Except.error (ValidationError.unreachableTransition s e g.render) := by
    rw [hts]
    exact bundle_check_unguarded_guarded s e t1 t2 g h1 h2
  have hnotok : validate_unreachable_transitions sm ≠ Except.ok () := by
    intro hok
    have hb := (validate_unreachable_transitions_ok_iff sm).mp hok s ems hs e em he
    rw [hbundle] at hb
    cases hb
  cases hv : validate sm with
  | none =>
      have := validate_isSome sm
      rw [hv] at this
      cases this
  | some r =>
      cases r with
      | error err => exact ⟨err, rfl⟩
      | ok u =>
          cases u
          exact absurd ((validate_ok_iff sm).mp hv).2.2 hnotok

/-- Claim C4, witness: the spec's scenario — `Tick` on `A` with an unguarded
transition to `C` declared before an `is_ready`-guarded transition to `B` —
is rejected. -/
theorem c4_witness : ∃ err, validate sm_c4 = some (Except.error err) :=
  c4_joint_bundle sm_c4 "A" "Tick"
    [("Tick", { event := "Tick", transitions := [t_unguarded, t_guarded] })]
    { event := "Tick", transitions := [t_unguarded, t_guarded] }
    t_unguarded t_guarded
    (GuardExpression.guard { ident := "is_ready", is_async := false })
    (by decide) (by decide) rfl rfl rfl (by decide)

/-- Claim C5: `validate` runs the action validator, then the guard validator,
then the unreachable-transition validator, short-circuiting on the first
failure: an action-signature failure is returned as-is (in particular a model
violating both action consistency and reachability reports the action
violation), and success is equivalent to all three checks passing. -/
theorem c5_fail_fast (sm : ParsedStateMachine) :
    (∀ e, validate_action_signatures sm = some (Except.error e) →
      validate sm = some (Except.error e)) ∧
    (∀ e e', validate_action_signatures sm = some (Except.error e) →
      validate_unreachable_transitions sm = Except.error e' →
      validate sm = some (Except.error e)) ∧
    (validate sm = some (Except.ok ()) ↔
      validate_action_signatures sm = some (Except.ok ()) ∧
        validate_guard_signatures sm = some (Except.ok ()) ∧
        validate_unreachable_transitions sm = Except.ok ()) :=
  ⟨fun e h => validate_of_action_error sm e h,
   fun e _ h _ => validate_of_action_error sm e h,
   validate_ok_iff sm⟩

/-- Claim C5, witness: `sm_both_defects` violates both action consistency and
reachability, and `validate` reports the action violation. -/
theorem c5_witness :
    validate sm_both_defects =
      some (Except.error (ValidationError.actionSignature "a")) :=
  (c5_fail_fast sm_both_defects).2.1 (ValidationError.actionSignature "a")
    (ValidationError.duplicateTransition "S" "E3") rfl rfl

/-- Claim C6: every violation returned by `validate` carries a message naming
the offending entity — the action identifier for an inconsistent action
signature (an action with two differing call-site signatures), the guard
identifier for an inconsistent guard signature, and the source state and
event of a more-than-one-transition bundle for an unreachable or duplicate
transition. -/
theorem c6_error_messages (sm : ParsedStateMachine) (e : ValidationError)
    (h : validate sm = some (Except.error e)) :
    (∀ a, e = ValidationError.actionSignature a →
      (∃ p q, e.message = p ++ (a ++ q)) ∧
      ∃ s1 s2, (a, s1) ∈ action_occurrences sm ∧
        (a, s2) ∈ action_occurrences sm ∧ s1 ≠ s2) ∧
    (∀ g, e = ValidationError.guardSignature g →
      (∃ p q, e.message = p ++ (g ++ q)) ∧
      ∃ s1 s2, (g, s1) ∈ guard_occurrences sm ∧
        (g, s2) ∈ guard_occurrences sm ∧ s1 ≠ s2) ∧
    (∀ s ev gt, e = ValidationError.unreachableTransition s ev gt →
      (∃ p q, e.message = s ++ (p ++ (ev ++ q))) ∧
      ∃ ems em, (s, ems) ∈ sm.states_events_mapping ∧ (ev, em) ∈ ems ∧
        em.transitions.length > 1) ∧
    (∀ s ev, e = ValidationError.duplicateTransition s ev →
      (∃ p q, e.message = s ++ (p ++ (ev ++ q))) ∧
      ∃ ems em, (s, ems) ∈ sm.states_events_mapping ∧ (ev, em) ∈ ems ∧
        em.transitions.length > 1) := by
  rcases validate_error_cases sm e h with ha | ⟨_, hg⟩ | ⟨_, _, hu⟩
  · obtain ⟨n, s1, s2, he, hm1, hm2, hne⟩ := validate_action_signatures_error_spec sm e ha
    subst he
    refine ⟨?_, ?_, ?_, ?_⟩
    · intro a hae
      obtain rfl := ValidationError.actionSignature.inj hae
      exact ⟨⟨"Action `",
        "` can only be reused when all input states, events, and output states have the same data",
        rfl⟩, s1, s2, hm1, hm2, hne⟩
    · intro g hge; cases hge
    · intro s ev gt hue; cases hue
    · intro s ev hde; cases hde
  · obtain ⟨n, s1, s2, he, hm1, hm2, hne⟩ := validate_guard_signatures_error_spec sm e hg
    subst he
    refine ⟨?_, ?_, ?_, ?_⟩
    · intro a hae; cases hae
    · intro g hge
      obtain rfl := ValidationError.guardSignature.inj hge
      exact ⟨⟨"Guard `",
        "` can only be reused when all input states and events have the same data",
        rfl⟩, s1, s2, hm1, hm2, hne⟩
    · intro s ev gt hue; cases hue
    · intro s ev hde; cases hde
  · obtain ⟨s, ems, ev, em, hm1, hm2, hbc⟩ :=
      unreachable_check_states_error sm.states_events_mapping e hu
    obtain ⟨hlen, hshape⟩ := bundle_check_error_shape s ev em.transitions e hbc
    rcases hshape with ⟨gt0, rfl⟩ | rfl
    · refine ⟨?_, ?_, ?_, ?_⟩
      · intro a hae; cases hae
      · intro g hge; cases hge
      · intro s' ev' gt' hue
        obtain ⟨rfl, rfl, rfl⟩ := ValidationError.unreachableTransition.inj hue
        exact ⟨⟨" + ",
          ": [" ++ (gt0 ++ "] : guarded transition is unreachable because it follows an unguarded transition, which handles all cases"),
          rfl⟩, ems, em, hm1, hm2, hlen⟩
      · intro s' ev' hde; cases hde
    · refine ⟨?_, ?_, ?_, ?_⟩
      · intro a hae; cases hae
      · intro g hge; cases hge
      · intro s' ev' gt' hue; cases hue
      · intro s' ev' hde
        obtain ⟨rfl, rfl⟩ := ValidationError.duplicateTransition.inj hde
        exact ⟨⟨" + ",
          ": State and event combination specified multiple times, remove duplicates.",
          rfl⟩, ems, em, hm1, hm2, hlen⟩

/-- Claim C6, witness: the violation `validate` returns on `sm_c4` names the
state `A` and the event `Tick` in its message and points at the
more-than-one-transition bundle. -/
theorem c6_witness :
    (∃ p q, (ValidationError.unreachableTransition "A" "Tick" "is_ready").message =
      "A" ++ (p ++ ("Tick" ++ q))) ∧
    ∃ ems em, ("A", ems) ∈ sm_c4.states_events_mapping ∧ ("Tick", em) ∈ ems ∧
      em.transitions.length > 1 :=
  (c6_error_messages sm_c4
    (ValidationError.unreachableTransition "A" "Tick" "is_ready") rfl).2.2.1
    "A" "Tick" "is_ready" rfl

/-- Claim C7: a bundle containing exactly one transition always passes the
per-bundle reachability check, whether or not the transition is guarded; and
every error `validate_unreachable_transitions` reports comes from a bundle
with more than one transition. -/
theorem c7_single_transition_exemption :
    (∀ s e t, bundle_check s e [t] = Except.ok ()) ∧
    (∀ sm err, validate_unreachable_transitions sm = Except.error err →
      ∃ s ems e em, (s, ems) ∈ sm.states_events_mapping ∧ (e, em) ∈ ems ∧
        em.transitions.length > 1 ∧
        bundle_check s e em.transitions = Except.error err) := by
  constructor
  · exact bundle_check_single
  · intro sm err h
    obtain ⟨s, ems, e, em, hm1, hm2, hbc⟩ :=
      unreachable_check_states_error sm.states_events_mapping err h
    exact ⟨s, ems, e, em, hm1, hm2,
      (bundle_check_error_shape s e em.transitions err hbc).1, hbc⟩

/-- Claim C7, witness: a singleton guarded bundle passes, and the duplicate
error of `sm_duplicate` is traced to its two-transition bundle. -/
theorem c7_witness :
    bundle_check "A" "E" [t_guarded] = Except.ok () ∧
    ∃ s ems e em, (s, ems) ∈ sm_duplicate.states_events_mapping ∧ (e, em) ∈ ems ∧
      em.transitions.length > 1 ∧
      bundle_check s e em.transitions =
        Except.error (ValidationError.duplicateTransition "A" "E") :=
  ⟨c7_single_transition_exemption.1 "A" "E" t_guarded,
   c7_single_transition_exemption.2 sm_duplicate
     (ValidationError.duplicateTransition "A" "E") rfl⟩

/-- Claim C8: in both signature validators, the `get` performed right after
`or_insert_with` on the same key always finds a value: the result of each
validator is `some`, so modelled `unwrap` panics (`none`) are impossible for
every input model. -/
theorem c8_unwrap_never_fails (sm : ParsedStateMachine) :
    (validate_action_signatures sm).isSome = true ∧
    (validate_guard_signatures sm).isSome = true :=
  ⟨validate_action_signatures_isSome sm, validate_guard_signatures_isSome sm⟩

/-- Claim C9: the synchrony flag is part of signature equality — if the same
action identifier occurs at two call sites whose source-state, event, and
target-state data types all agree but whose `is_async` flags differ, the
action validator rejects; likewise for guard identifiers and the guard
validator. -/
theorem c9_async_flag_in_signature (sm : ParsedStateMachine) :
    (∀ s1 s2 : ActionSite, s1 ∈ action_sites sm → s2 ∈ action_sites sm →
      s1.ident = s2.ident → s1.in_state_data = s2.in_state_data →
      s1.event_data = s2.event_data → s1.out_state_data = s2.out_state_data →
      s1.is_async ≠ s2.is_async →
      validate_action_signatures sm ≠ some (Except.ok ())) ∧
    (∀ g1 g2 : GuardSite, g1 ∈ guard_sites sm → g2 ∈ guard_sites sm →
      g1.ident = g2.ident → g1.in_state_data = g2.in_state_data →
      g1.event_data = g2.event_data → g1.is_async ≠ g2.is_async →
      validate_guard_signatures sm ≠ some (Except.ok ())) := by
  constructor
  · intro s1 s2 hm1 hm2 hid _ _ _ hasync hok
    have hagree := (validate_action_signatures_ok_iff sm).mp hok
    have h1 := action_occurrence_of_site sm s1 hm1
    have h2 := action_occurrence_of_site sm s2 hm2
    rw [hid] at h1
    have hsig := hagree s2.ident s1.signature s2.signature h1 h2
    have hflag : s1.is_async = s2.is_async := by
      have := congrArg FunctionSignature.is_async hsig
      simpa [ActionSite.signature, FunctionSignature.new] using this
    exact hasync hflag
  · intro g1 g2 hm1 hm2 hid _ _ hasync hok
    have hagree := (validate_guard_signatures_ok_iff sm).mp hok
    have h1 := guard_occurrence_of_site sm g1 hm1
    have h2 := guard_occurrence_of_site sm g2 hm2
    rw [hid] at h1
    have hsig := hagree g2.ident g1.signature g2.signature h1 h2
    have hflag : g1.is_async = g2.is_async := by
      have := congrArg FunctionSignature.is_async hsig
      simpa [GuardSite.signature, FunctionSignature.new_guard, FunctionSignature.new]
        using this
    exact hasync hflag

/-- Claim C9, witness: `sm_action_async` reuses action `a` with identical
data but differing synchrony, `sm_guard_async` does the same for guard `g`;
both validators reject. -/
theorem c9_witness :
    validate_action_signatures sm_action_async ≠ some (Except.ok ()) ∧
    validate_guard_signatures sm_guard_async ≠ some (Except.ok ()) :=
  ⟨(c9_async_flag_in_signature sm_action_async).1
      { ident := "a", in_state_data := none, event_data := none,
        key_state_data := none, out_state_data := none, is_async := false }
      { ident := "a", in_state_data := none, event_data := none,
        key_state_data := none, out_state_data := none, is_async := true }
      (by decide) (by decide) rfl rfl rfl rfl (by decide),
   (c9_async_flag_in_signature sm_guard_async).2
      { ident := "g", in_state_data := none, event_data := none, is_async := false }
      { ident := "g", in_state_data := none, event_data := none, is_async := true }
      (by decide) (by decide) rfl rfl rfl (by decide)⟩

/-- Claim C10: a model in which no transition carries an action or a guard
and every bundle has at most one transition always validates; in particular a
model with an empty states-events mapping validates for any data-type
mappings. -/
theorem c10_trivial_models (sm : ParsedStateMachine)
    (hnone : ∀ p ∈ sm.states_events_mapping, ∀ q ∈ p.2, ∀ t ∈ q.2.transitions,
      t.action = none ∧ t.guard = none)
    (hsingle : ∀ p ∈ sm.states_events_mapping, ∀ q ∈ p.2,
      q.2.transitions.length ≤ 1) :
    validate sm = some (Except.ok ()) ∧
    ∀ sd ed : DataDefinitions,
      validate { state_data := sd, event_data := ed, states_events_mapping := [] } =
        some (Except.ok ()) := by
  constructor
  · rw [validate_ok_iff]
    refine ⟨?_, ?_, ?_⟩
    · rw [validate_action_signatures_ok_iff]
      have hs : action_sites sm = [] := action_sites_nil sm
        (fun s ems hm e em hm2 t ht => (hnone (s, ems) hm (e, em) hm2 t ht).1)
      rw [action_occurrences, hs]
      intro n s1 s2 h1 _
      simp at h1
    · rw [validate_guard_signatures_ok_iff]
      have hs : guard_sites sm = [] := guard_sites_nil sm
        (fun s ems hm e em hm2 t ht => (hnone (s, ems) hm (e, em) hm2 t ht).2)
      rw [guard_occurrences, hs]
      intro n s1 s2 h1 _
      simp at h1
    · rw [validate_unreachable_transitions_ok_iff]
      intro s ems hm e em hm2
      have hle : em.transitions.length ≤ 1 := hsingle (s, ems) hm (e, em) hm2
      rw [bundle_check, if_neg (by omega)]
  · intro sd ed
    rw [validate_ok_iff]
    refine ⟨?_, ?_, ?_⟩
    · rw [validate_action_signatures_ok_iff]
      have hs : action_sites
          { state_data := sd, event_data := ed, states_events_mapping := [] } = [] := rfl
      rw [action_occurrences, hs]
      intro n s1 s2 h1 _
      simp at h1
    · rw [validate_guard_signatures_ok_iff]
      have hs : guard_sites
          { state_data := sd, event_data := ed, states_events_mapping := [] } = [] := rfl
      rw [guard_occurrences, hs]
      intro n s1 s2 h1 _
      simp at h1
    · rw [validate_unreachable_transitions_ok_iff]
      intro s ems hm e em hm2
      cases hm

/-- Claim C10, witness: `sm_plain` — one guardless, actionless transition in
a singleton bundle — validates. -/
theorem c10_witness : validate sm_plain = some (Except.ok ()) :=
  (c10_trivial_models sm_plain (by decide) (by decide)).1
